import Mathlib

/-!
# Formal model of the TONCHECK price-alert bot (`src/main.py`)

The program is a Telegram bot plus a cron-style batch job sharing one JSON
file `alerts.json`.  Prices are modelled as exact rationals `ℚ` (the Python
code uses floats; no claim under study depends on binary-float rounding
artifacts, and `ℚ` has no NaN, matching the "real, non-NaN" reading).
I/O is made explicit: the JSON file state, the HTTP oracle outcome and the
success of each `bot.send_message` call are parameters, and each handler
returns the store it passes to `save_alerts` (`none` when it returns
without writing).
-/

/-- A user's alert record, mirroring the JSON value
`{'chat_id': ..., 'targets': [...]}` built at line 81 of `main.py`. -/
structure UserAlerts where
  chat_id : ℤ
  targets : List ℚ
deriving DecidableEq, Repr

/-- The alert store: the JSON object mapping user-id strings to records,
modelled as an association list (Python dicts preserve insertion order and
have unique keys). -/
abbrev AlertStore := List (String × UserAlerts)

/-- Dictionary lookup `alerts[user_id]` / `user_id in alerts`. -/
def findUser : AlertStore → String → Option UserAlerts
  | [], _ => none
  | (k, v) :: rest, uid => if k = uid then some v else findUser rest uid

/-- Dictionary update `alerts[user_id] = u` (replaces an existing binding,
otherwise appends a new one). -/
def setUser : AlertStore → String → UserAlerts → AlertStore
  | [], uid, u => [(uid, u)]
  | (k, v) :: rest, uid, u =>
    if k = uid then (uid, u) :: rest else (k, v) :: setUser rest uid u

/-- The target list the store holds for a user (empty when absent). -/
def targetsOf (alerts : AlertStore) (uid : String) : List ℚ :=
  ((findUser alerts uid).map UserAlerts.targets).getD []

/-- State of the backing `alerts.json` file as `load_alerts` can find it:
absent, present but not valid JSON, or a parsed store. -/
inductive AlertsFile where
  | missing
  | malformed
  | parsed (s : AlertStore)

/-- Model of `load_alerts` (`main.py` lines 15-23): returns `{}` when the file does
not exist, catches `json.JSONDecodeError` and returns `{}` when it is
corrupt, and otherwise returns the parsed object.  The function is total:
no error reaches the caller. -/
def load_alerts : AlertsFile → AlertStore
  | .missing => []
  | .malformed => []
  | .parsed s => s

/-- The durable store after an operation, given the argument of the
`save_alerts` call the operation made (`none` = it never called save). -/
def storeAfter (before : AlertStore) (written : Option AlertStore) : AlertStore :=
  written.getD before

/-- Outcome of the CoinGecko request inside `get_ton_price`: either some
step raised (network error, `raise_for_status`, JSON decode) — caught by
the `except` — or a JSON body whose `'usd'` field may be absent. -/
inductive OracleResponse where
  | failure
  | body (usd : Option ℚ)

/-- Model of `get_ton_price` (`main.py` lines 32-47).  The final line is
`return float(price) if price else None`: a falsy `price` — the field
absent (`None`) or equal to `0` — yields `None`. -/
def get_ton_price : OracleResponse → Option ℚ
  | .failure => none
  | .body none => none
  | .body (some p) => if p = 0 then none else some p

/-- The alert-matching condition of `check_alerts` line 140:
`(current_price >= target_price) or (current_price <= target_price)`. -/
def fires (current_price target : ℚ) : Bool :=
  decide (current_price ≥ target) || decide (current_price ≤ target)

/-- The spec's Alert Matcher `evaluate(currentPrice, targets)`: partition
the target list into the targets that fire and those that remain, with the
fire condition of line 140. -/
def evaluate (currentPrice : ℚ) (targets : List ℚ) : List ℚ × List ℚ :=
  targets.partition (fun t => fires currentPrice t)

/-- One user's pass of the `for target_price in data['targets']` loop of
`check_alerts` (lines 137-157): `send t` tells whether the
`bot.send_message` call for fired target `t` succeeds.  Returns the
`new_targets` list (the targets that did not fire, in order) and whether
some send failed (which puts the user into `alerts_to_remove`). -/
def userSweep (current_price : ℚ) (send : ℚ → Bool) : List ℚ → List ℚ × Bool
  | [] => ([], false)
  | t :: ts =>
    let rest := userSweep current_price send ts
    if fires current_price t then (rest.1, !send t || rest.2)
    else (t :: rest.1, rest.2)

/-- Model of `check_alerts` (`main.py` lines 116-173).  `price?` is the result of
`get_ton_price()`; `send uid t` tells whether the notification to user
`uid` for target `t` is delivered.  Returns `none` when the sweep exits
before persisting (price unavailable, line 126), else `some store'` where
`store'` is the store handed to `save_alerts` (line 172): every user keeps
their `new_targets`, and users with a failed send or an empty remaining
list are deleted. -/
def check_alerts (price? : Option ℚ) (send : String → ℚ → Bool)
    (alerts : AlertStore) : Option AlertStore :=
  match price? with
  | none => none
  | some current_price =>
    some (alerts.filterMap (fun e =>
      let r := userSweep current_price (send e.1) e.2.targets
      if r.2 || r.1.isEmpty then none
      else some (e.1, ⟨e.2.chat_id, r.1⟩)))

/-- Numeric value of a digit string (most significant first). -/
def natOfDigits (cs : List Char) : ℕ :=
  cs.foldl (fun n c => 10 * n + (c.toNat - 48)) 0

/-- Python `float()` on an unsigned plain decimal literal
`digits [ . digits ]`: every character a digit apart from at most one
point, and at least one digit present (`"7"`, `"7."`, `".5"` parse;
`""`, `"."`, `"abc"` raise `ValueError`, here `none`). -/
def parseUnsigned? (cs : List Char) : Option ℚ :=
  let intPart := cs.takeWhile (fun c => c != '.')
  if intPart.all Char.isDigit then
    match cs.dropWhile (fun c => c != '.') with
    | [] => if intPart.isEmpty then none else some (natOfDigits intPart)
    | _ :: frac =>
      if frac.all Char.isDigit && !(intPart.isEmpty && frac.isEmpty) then
        some ((natOfDigits intPart : ℚ) + (natOfDigits frac : ℚ) / (10 : ℚ) ^ frac.length)
      else none
  else none

/-- Python `float(s)` as used on the price argument: an optional sign
followed by an unsigned decimal literal.  (Exotic float syntax — exponents,
`inf`, `nan`, underscores — is out of scope of the claims.) -/
def parseFloat? (s : String) : Option ℚ :=
  match s.toList with
  | '+' :: cs => parseUnsigned? cs
  | '-' :: cs => (parseUnsigned? cs).map (fun q => -q)
  | cs => parseUnsigned? cs

/-- Round-half-to-even to an integer, Python's `round` rule. -/
def roundHalfEven (q : ℚ) : ℤ :=
  if q - (⌊q⌋ : ℚ) < 1/2 then ⌊q⌋
  else if q - (⌊q⌋ : ℚ) > 1/2 then ⌊q⌋ + 1
  else if ⌊q⌋ % 2 = 0 then ⌊q⌋ else ⌊q⌋ + 1

/-- Python `round(x, 2)` (`main.py` line 70), on the exact rational value:
round half-to-even at the second decimal. -/
def round2 (q : ℚ) : ℚ := (roundHalfEven (q * 100) : ℚ) / 100

/-- Reply outcome of the `/set_alert` handler. -/
inductive SetAlertResult where
  | missingArg
  | invalidFormat
  | invalidPrice
  | duplicateTarget (p : ℚ)
  | ok (p : ℚ)
deriving DecidableEq, Repr

/-- Model of `set_alert_command` (`main.py` lines 59-97), durable effect made
explicit: the second component is `some store'` exactly when the handler
reaches `save_alerts(alerts)` (line 89), and `none` when it returns early
(missing argument, `ValueError` from `float`, non-positive rounded price,
or duplicate target).  `alerts` stands for the `load_alerts()` result;
`.sort()` on the target list is modelled by insertion sort (any comparison
sort of rationals produces the same ascending list). -/
def set_alert_command (user_id : String) (chat_id : ℤ) (args : List String)
    (alerts : AlertStore) : SetAlertResult × Option AlertStore :=
  match args with
  | [] => (.missingArg, none)
  | arg :: _ =>
    match parseFloat? arg with
    | none => (.invalidFormat, none)
    | some x =>
      let target_price := round2 x
      if target_price ≤ 0 then (.invalidPrice, none)
      else
        let u := (findUser alerts user_id).getD ⟨chat_id, []⟩
        if target_price ∈ u.targets then (.duplicateTarget target_price, none)
        else
          (.ok target_price,
            some (setUser alerts user_id
              ⟨u.chat_id, (u.targets ++ [target_price]).insertionSort (· ≤ ·)⟩))

/-- Model of `my_alerts_command` (`main.py` lines 99-111): `some ts` (the listing
shown, in stored order) when the user exists with a non-empty target list,
else `none` (the "no active alerts" reply). -/
def my_alerts_command (user_id : String) (alerts : AlertStore) : Option (List ℚ) :=
  match findUser alerts user_id with
  | none => none
  | some u => if u.targets.isEmpty then none else some u.targets

/-- Store invariant: every held target list is ascending and has no
duplicates. -/
def SortedNodup (alerts : AlertStore) : Prop :=
  ∀ e ∈ alerts, e.2.targets.Sorted (· ≤ ·) ∧ e.2.targets.Nodup

/-- Store invariant: no held user record has an empty target list. -/
def NoEmptyUser (alerts : AlertStore) : Prop :=
  ∀ e ∈ alerts, e.2.targets ≠ []

/-! ## Helper lemmas -/

/-- The fire condition of line 140 is a tautology over the rationals. -/
lemma fires_eq_true (p t : ℚ) : fires p t = true := by
  simp [fires]
  exact le_total t p

/-- Since every target fires, the `new_targets` list is always empty. -/
lemma userSweep_fst (p : ℚ) (send : ℚ → Bool) (ts : List ℚ) :
    (userSweep p send ts).1 = [] := by
  induction ts with
  | nil => rfl
  | cons t ts ih => simp [userSweep, fires_eq_true, ih]

/-- A failed delivery on any target marks the user for removal. -/
lemma userSweep_snd_of_fail {p : ℚ} {send : ℚ → Bool} {ts : List ℚ}
    (h : ∃ t ∈ ts, send t = false) : (userSweep p send ts).2 = true := by
  induction ts with
  | nil => obtain ⟨t, ht, _⟩ := h; cases ht
  | cons t ts ih =>
    obtain ⟨t', ht', hs⟩ := h
    rcases List.mem_cons.mp ht' with h' | h'
    · subst h'
      simp [userSweep, fires_eq_true, hs]
    · simp [userSweep, fires_eq_true, ih ⟨t', h', hs⟩]

/-- With a price in hand, a sweep always saves — and always saves the empty
store, every user having been fired out. -/
lemma check_alerts_some_eq_nil (p : ℚ) (send : String → ℚ → Bool) (alerts : AlertStore) :
    check_alerts (some p) send alerts = some [] := by
  simp only [check_alerts, Option.some.injEq]
  rw [List.filterMap_eq_nil_iff]
  intro e _
  simp [userSweep_fst]

/-- A successful lookup comes from an entry of the store. -/
lemma findUser_mem {uid : String} {u : UserAlerts} :
    ∀ {alerts : AlertStore}, findUser alerts uid = some u → (uid, u) ∈ alerts := by
  intro alerts
  induction alerts with
  | nil => intro h; simp [findUser] at h
  | cons e rest ih =>
    intro h
    obtain ⟨k, v⟩ := e
    simp only [findUser] at h
    split at h
    · next hk =>
      rw [Option.some_inj] at h
      subst hk; subst h
      exact List.mem_cons_self _ _
    · exact List.mem_cons_of_mem _ (ih h)

/-- Entries after an update are the new binding or old entries. -/
lemma mem_setUser {uid : String} {u : UserAlerts} :
    ∀ {alerts : AlertStore} {e : String × UserAlerts},
      e ∈ setUser alerts uid u → e = (uid, u) ∨ e ∈ alerts := by
  intro alerts
  induction alerts with
  | nil =>
    intro e he
    simp [setUser] at he
    exact Or.inl he
  | cons p rest ih =>
    intro e he
    obtain ⟨k, v⟩ := p
    simp only [setUser] at he
    split at he
    · rcases List.mem_cons.mp he with h | h
      · exact Or.inl h
      · exact Or.inr (List.mem_cons_of_mem _ h)
    · rcases List.mem_cons.mp he with h | h
      · exact Or.inr (h ▸ List.mem_cons_self _ _)
      · rcases ih h with h' | h'
        · exact Or.inl h'
        · exact Or.inr (List.mem_cons_of_mem _ h')

/-- Anatomy of a `/set_alert` call that reached `save_alerts`: the argument
parsed, the rounded price passed the positivity gate and the duplicate
check, and the saved store is the old one with the user's list re-sorted
around the new target. -/
lemma set_alert_write_eq {uid : String} {chat : ℤ} {args : List String}
    {alerts : AlertStore} {r : SetAlertResult} {s' : AlertStore}
    (h : set_alert_command uid chat args alerts = (r, some s')) :
    ∃ arg rest x, args = arg :: rest ∧ parseFloat? arg = some x ∧
      ¬ round2 x ≤ 0 ∧
      round2 x ∉ ((findUser alerts uid).getD ⟨chat, []⟩).targets ∧
      s' = setUser alerts uid
        ⟨((findUser alerts uid).getD ⟨chat, []⟩).chat_id,
         (((findUser alerts uid).getD ⟨chat, []⟩).targets
            ++ [round2 x]).insertionSort (· ≤ ·)⟩ := by
  match args with
  | [] => simp [set_alert_command] at h
  | arg :: rest =>
    cases hp : parseFloat? arg with
    | none => simp [set_alert_command, hp] at h
    | some x =>
      simp only [set_alert_command, hp] at h
      split at h
      · simp at h
      · split at h
        · simp at h
        · next hpos hdup =>
          refine ⟨arg, rest, x, rfl, hp, hpos, hdup, ?_⟩
          rw [Prod.mk.injEq, Option.some_inj] at h
          exact h.2.symm

/-- Rounding at the second decimal keeps a non-positive value non-positive. -/
lemma roundHalfEven_nonpos {q : ℚ} (hq : q ≤ 0) : roundHalfEven q ≤ 0 := by
  have hfq : (⌊q⌋ : ℚ) ≤ q := Int.floor_le q
  have hf : ⌊q⌋ ≤ 0 := by exact_mod_cast hfq.trans hq
  have key : ¬ (q - (⌊q⌋ : ℚ) < 1/2) → ⌊q⌋ + 1 ≤ 0 := by
    intro h
    have h2 : (⌊q⌋ : ℚ) < 0 := by
      have := not_lt.mp h
      linarith
    have h3 : ⌊q⌋ < 0 := by exact_mod_cast h2
    omega
  unfold roundHalfEven
  by_cases h1 : q - (⌊q⌋ : ℚ) < 1/2
  · rw [if_pos h1]; exact hf
  · rw [if_neg h1]
    by_cases h2 : q - (⌊q⌋ : ℚ) > 1/2
    · rw [if_pos h2]; exact key h1
    · rw [if_neg h2]
      by_cases h3 : ⌊q⌋ % 2 = 0
      · rw [if_pos h3]; exact hf
      · rw [if_neg h3]; exact key h1

/-- Monotone consequence for `round2`: non-positive stays non-positive. -/
lemma round2_nonpos {x : ℚ} (hx : x ≤ 0) : round2 x ≤ 0 := by
  have h : roundHalfEven (x * 100) ≤ 0 := roundHalfEven_nonpos (by linarith)
  have h' : ((roundHalfEven (x * 100) : ℚ)) ≤ 0 := by exact_mod_cast h
  unfold round2
  linarith

/-! ## Claim theorems -/

/-- C1: for every non-empty target list and every rational current price,
the matcher fires every target: `fired` is the whole list and `remaining`
is empty; moreover the `new_targets` list the batch loop keeps is exactly
the matcher's `remaining` component, whatever the send outcomes. -/
theorem evaluate_fires_every_target (p : ℚ) (ts : List ℚ) (h : ts ≠ []) :
    (evaluate p ts).1 = ts ∧ (evaluate p ts).2 = [] ∧
      ∀ send : ℚ → Bool, (userSweep p send ts).1 = (evaluate p ts).2 := by
  refine ⟨?_, ?_, ?_⟩ <;>
    simp [evaluate, List.partition_eq_filter_filter, fires_eq_true, userSweep_fst,
      List.filter_eq_self, List.filter_eq_nil_iff]

/-- Witness for C1 at current price 7 and targets [5, 10]. -/
theorem evaluate_fires_every_target_witness :
    (evaluate 7 [5, 10]).1 = [5, 10] ∧ (evaluate 7 [5, 10]).2 = [] := by
  have h := evaluate_fires_every_target 7 [5, 10] (by decide)
  exact ⟨h.1, h.2.1⟩

/-- C2: when the oracle returns `Unavailable`, `check_alerts` performs no
store write, and the durable store after the sweep equals the store before
it. -/
theorem check_alerts_unavailable_preserves_store (send : String → ℚ → Bool)
    (alerts : AlertStore) :
    check_alerts none send alerts = none ∧
      storeAfter alerts (check_alerts none send alerts) = alerts :=
  ⟨rfl, rfl⟩

/-- C3: `load_alerts` never propagates an error — it is a total function
that returns the empty store on a missing file and on a malformed file,
and the parsed store otherwise. -/
theorem load_alerts_missing_or_malformed_empty :
    load_alerts .missing = [] ∧ load_alerts .malformed = [] ∧
      ∀ s : AlertStore, load_alerts (.parsed s) = s :=
  ⟨rfl, rfl, fun _ => rfl⟩

/-- C4: if notification delivery fails for a stored user on some of their
targets during a sweep with a price in hand, the per-user loop marks the
user for removal, and the persisted store holds no record for that user at
all (no target of theirs survives). -/
theorem send_failure_removes_whole_user (p : ℚ) (send : String → ℚ → Bool)
    (alerts : AlertStore) (uid : String) (u : UserAlerts)
    (hmem : (uid, u) ∈ alerts) (hfail : ∃ t ∈ u.targets, send uid t = false) :
    (userSweep p (send uid) u.targets).2 = true ∧
    ∃ s', check_alerts (some p) send alerts = some s' ∧ findUser s' uid = none :=
  ⟨userSweep_snd_of_fail hfail, [], check_alerts_some_eq_nil p send alerts, rfl⟩

/-- Witness for C4: user "bob" with targets [5, 10], every send failing. -/
theorem send_failure_removes_whole_user_witness :
    (userSweep 7 ((fun _ _ => false) "bob") [5, 10]).2 = true ∧
    ∃ s', check_alerts (some 7) (fun _ _ => false) [("bob", ⟨3, [5, 10]⟩)] = some s' ∧
      findUser s' "bob" = none :=
  send_failure_removes_whole_user 7 (fun _ _ => false) [("bob", ⟨3, [5, 10]⟩)]
    "bob" ⟨3, [5, 10]⟩ (by decide) ⟨5, by decide, rfl⟩

/-- C5: registering a price whose 2-decimal rounding is already among the
user's targets replies `DuplicateTarget` and performs no save: the durable
store is unchanged. -/
theorem duplicate_target_rejected_no_save (alerts : AlertStore) (uid : String)
    (chat : ℤ) (arg : String) (x : ℚ)
    (hparse : parseFloat? arg = some x) (hpos : 0 < round2 x)
    (hdup : round2 x ∈ targetsOf alerts uid) :
    set_alert_command uid chat [arg] alerts = (.duplicateTarget (round2 x), none) ∧
    storeAfter alerts (set_alert_command uid chat [arg] alerts).2 = alerts := by
  have hle : ¬ (round2 x ≤ 0) := not_le.mpr hpos
  cases hfu : findUser alerts uid with
  | none =>
    rw [targetsOf, hfu] at hdup
    simp at hdup
  | some u =>
    rw [targetsOf, hfu] at hdup
    simp at hdup
    constructor
    · simp [set_alert_command, hparse, hfu, hle, hdup]
    · simp [set_alert_command, hparse, hfu, hle, hdup, storeAfter]

/-- Witness for C5: user "42" already holds target 7 and sends "7" again. -/
theorem duplicate_target_rejected_no_save_witness :
    set_alert_command "42" 1 ["7"] [("42", ⟨1, [7]⟩)]
      = (.duplicateTarget (round2 7), none) ∧
    storeAfter [("42", ⟨1, [7]⟩)] (set_alert_command "42" 1 ["7"] [("42", ⟨1, [7]⟩)]).2
      = [("42", ⟨1, [7]⟩)] := by
  have h7 : round2 7 = 7 := by norm_num [round2, roundHalfEven]
  refine duplicate_target_rejected_no_save [("42", ⟨1, [7]⟩)] "42" 1 "7" 7 rfl ?_ ?_
  · rw [h7]; norm_num
  · rw [h7]; decide

/-- C6: a price text that does not parse as a number is rejected as
`InvalidFormat`, and one that parses to a non-positive number as
`InvalidPrice`; neither call saves, so the store is untouched. -/
theorem invalid_input_rejected_no_save (alerts : AlertStore) (uid : String)
    (chat : ℤ) (s : String) :
    (parseFloat? s = none → set_alert_command uid chat [s] alerts = (.invalidFormat, none)) ∧
    (∀ x : ℚ, parseFloat? s = some x → x ≤ 0 →
      set_alert_command uid chat [s] alerts = (.invalidPrice, none)) := by
  constructor
  · intro hp
    simp [set_alert_command, hp]
  · intro x hp hx
    simp [set_alert_command, hp, round2_nonpos hx]

/-- Witness for C6 on the spec's own inputs "abc", "0" and "-5". -/
theorem invalid_input_rejected_no_save_witness :
    set_alert_command "u" 1 ["abc"] [] = (.invalidFormat, none) ∧
    set_alert_command "u" 1 ["0"] [] = (.invalidPrice, none) ∧
    set_alert_command "u" 1 ["-5"] [] = (.invalidPrice, none) :=
  ⟨(invalid_input_rejected_no_save [] "u" 1 "abc").1 rfl,
   (invalid_input_rejected_no_save [] "u" 1 "0").2 0 rfl le_rfl,
   (invalid_input_rejected_no_save [] "u" 1 "-5").2 (-5) rfl (by norm_num)⟩

/-- C7: registration preserves the invariant that every stored target list
is ascending and duplicate-free, and the listing command shows a stored
user's targets in ascending order without duplicates. -/
theorem targets_sorted_nodup_invariant :
    (∀ (alerts : AlertStore) (uid : String) (chat : ℤ) (args : List String)
        (r : SetAlertResult) (s' : AlertStore), SortedNodup alerts →
        set_alert_command uid chat args alerts = (r, some s') → SortedNodup s') ∧
    (∀ (alerts : AlertStore) (uid : String) (l : List ℚ), SortedNodup alerts →
        my_alerts_command uid alerts = some l → l.Sorted (· ≤ ·) ∧ l.Nodup) := by
  constructor
  · intro alerts uid chat args r s' hinv h
    obtain ⟨arg, rest, x, harg, hp, hpos, hdup, hs⟩ := set_alert_write_eq h
    subst hs
    intro e he
    rcases mem_setUser he with he' | he'
    · subst he'
      have hut : ((findUser alerts uid).getD ⟨chat, []⟩).targets.Sorted (· ≤ ·) ∧
          ((findUser alerts uid).getD ⟨chat, []⟩).targets.Nodup := by
        cases hfu : findUser alerts uid with
        | none => simp
        | some u0 =>
          have := hinv (uid, u0) (findUser_mem hfu)
          simpa [hfu] using this
      constructor
      · exact List.sorted_insertionSort _ _
      · have hperm := List.perm_insertionSort (α := ℚ) (· ≤ ·)
          (((findUser alerts uid).getD ⟨chat, []⟩).targets ++ [round2 x])
        refine hperm.nodup_iff.mpr ?_
        simp [List.nodup_append, hut.2, hdup]
    · exact hinv e he'
  · intro alerts uid l hinv h
    cases hfu : findUser alerts uid with
    | none => simp [my_alerts_command, hfu] at h
    | some u =>
      simp only [my_alerts_command, hfu] at h
      split at h
      · cases h
      · rw [Option.some_inj] at h
        subst h
        exact hinv (uid, u) (findUser_mem hfu)

/-- Witness for C7: registering 7 into the empty store yields a sorted,
duplicate-free store, listed in order. -/
theorem targets_sorted_nodup_invariant_witness :
    SortedNodup [("u", ⟨1, [7]⟩)] ∧
    ([(7:ℚ)]).Sorted (· ≤ ·) ∧ ([(7:ℚ)]).Nodup := by
  have h7 : round2 7 = 7 := by norm_num [round2, roundHalfEven]
  have hp7 : parseFloat? "7" = some 7 := rfl
  have hn7 : ¬ ((7:ℚ) ≤ 0) := by norm_num
  have heq : set_alert_command "u" 1 ["7"] [] = (.ok 7, some [("u", ⟨1, [7]⟩)]) := by
    simp [set_alert_command, hp7, h7, hn7, findUser, setUser, List.insertionSort,
      List.orderedInsert]
  have h1 : SortedNodup [("u", ⟨1, [7]⟩)] :=
    targets_sorted_nodup_invariant.1 [] "u" 1 ["7"] (.ok 7) [("u", ⟨1, [7]⟩)]
      (by intro e he; cases he) heq
  have h2 : ([(7:ℚ)]).Sorted (· ≤ ·) ∧ ([(7:ℚ)]).Nodup :=
    targets_sorted_nodup_invariant.2 [("u", ⟨1, [7]⟩)] "u" [7] h1 rfl
  exact ⟨h1, h2⟩

/-- C8: no operation persists a user entry with an empty target list: a
batch sweep never writes one, and registration preserves the no-empty-user
invariant of the store it loaded. -/
theorem no_empty_user_persisted :
    (∀ (p : ℚ) (send : String → ℚ → Bool) (alerts s' : AlertStore),
        check_alerts (some p) send alerts = some s' → NoEmptyUser s') ∧
    (∀ (alerts : AlertStore) (uid : String) (chat : ℤ) (args : List String)
        (r : SetAlertResult) (s' : AlertStore), NoEmptyUser alerts →
        set_alert_command uid chat args alerts = (r, some s') → NoEmptyUser s') := by
  constructor
  · intro p send alerts s' h
    rw [check_alerts_some_eq_nil] at h
    rw [Option.some_inj] at h
    subst h
    intro e he
    cases he
  · intro alerts uid chat args r s' hinv h
    obtain ⟨arg, rest, x, harg, hp, hpos, hdup, hs⟩ := set_alert_write_eq h
    subst hs
    intro e he
    rcases mem_setUser he with he' | he'
    · subst he'
      have hmem : round2 x ∈
          (((findUser alerts uid).getD ⟨chat, []⟩).targets
            ++ [round2 x]).insertionSort (· ≤ ·) :=
        (List.perm_insertionSort (α := ℚ) (· ≤ ·) _).mem_iff.mpr (by simp)
      exact List.ne_nil_of_mem hmem
    · exact hinv e he'

/-- Witness for C8: a sweep writes the empty store (no empty entry), and
registering 5 for "w" writes a store whose only entry is non-empty. -/
theorem no_empty_user_persisted_witness :
    NoEmptyUser [] ∧ NoEmptyUser [("w", ⟨2, [5]⟩)] := by
  have h5 : round2 5 = 5 := by norm_num [round2, roundHalfEven]
  have hp5 : parseFloat? "5" = some 5 := rfl
  have hn5 : ¬ ((5:ℚ) ≤ 0) := by norm_num
  have heq : set_alert_command "w" 2 ["5"] [] = (.ok 5, some [("w", ⟨2, [5]⟩)]) := by
    simp [set_alert_command, hp5, h5, hn5, findUser, setUser, List.insertionSort,
      List.orderedInsert]
  refine ⟨no_empty_user_persisted.1 7 (fun _ _ => true) [("z", ⟨1, [3]⟩)] []
    (check_alerts_some_eq_nil 7 (fun _ _ => true) [("z", ⟨1, [3]⟩)]), ?_⟩
  exact no_empty_user_persisted.2 [] "w" 2 ["5"] (.ok 5) [("w", ⟨2, [5]⟩)]
    (by intro e he; cases he) heq

/-- C9: the oracle client returns `Unavailable` on request failure, on a
missing `'usd'` field, and also on a reported price of exactly zero (the
falsy check `float(price) if price else None`); any non-zero price is
returned as is. -/
theorem get_ton_price_falsy_zero :
    get_ton_price .failure = none ∧ get_ton_price (.body none) = none ∧
    get_ton_price (.body (some 0)) = none ∧
    ∀ p : ℚ, p ≠ 0 → get_ton_price (.body (some p)) = some p := by
  refine ⟨rfl, rfl, rfl, fun p hp => ?_⟩
  simp [get_ton_price, hp]

/-- Witness for C9 at the non-zero price 7. -/
theorem get_ton_price_falsy_zero_witness :
    get_ton_price (.body (some 7)) = some 7 :=
  get_ton_price_falsy_zero.2.2.2 7 (by norm_num)

/-- C10: the positivity gate tests the price after rounding: "0.004" is a
strictly positive input, yet it rounds to 0 and is rejected as
`InvalidPrice` whatever the store. -/
theorem positivity_checked_after_rounding :
    (0 : ℚ) < 4/1000 ∧ parseFloat? "0.004" = some (4/1000) ∧ round2 (4/1000) = 0 ∧
    ∀ (alerts : AlertStore) (uid : String) (chat : ℤ),
      set_alert_command uid chat ["0.004"] alerts = (.invalidPrice, none) := by
  have h1 : parseFloat? "0.004"
      = some ((natOfDigits ['0'] : ℚ) + (natOfDigits ['0','0','4'] : ℚ) / (10:ℚ) ^ (3:ℕ)) := rfl
  have hd0 : natOfDigits ['0'] = 0 := rfl
  have hd4 : natOfDigits ['0','0','4'] = 4 := rfl
  have h1' : parseFloat? "0.004" = some (4/1000) := by
    rw [h1, hd0, hd4]; norm_num
  have h2 : round2 (4/1000 : ℚ) = 0 := by norm_num [round2, roundHalfEven]
  refine ⟨by norm_num, h1', h2, fun alerts uid chat => ?_⟩
  simp [set_alert_command, h1', h2]
